import Mathlib

/-!
Shallow embedding of the Autogen-Orchestrator core (task scheduler, retry
policy, correction loop, workflow definition and engine, conversation
manager) together with proofs of the specified properties.

Conventions of the embedding:
* Python floats (scores, delays) and timestamps are modelled as rationals;
  a timestamp argument `now` replaces each call to `datetime.now()`.
* Python dictionaries with opaque `Any` payloads (step `config`, workflow
  `variables`, `metadata`) are modelled as association lists of strings;
  the code only ever copies them or looks up string keys.
* `uuid.uuid4()` defaults are nondeterministic, so identifiers are explicit
  constructor arguments in the embedding.
* Fallible Python code (exceptions) is modelled with `Option`/`Except`.
-/

namespace Orch

/-- Lowercase a string, character by character (`str.lower`). -/
def lowerStr (s : String) : List Char := s.data.map Char.toLower

/-- `leadsWith needle hay`: `needle` occurs at the start of `hay`. -/
def leadsWith : List Char → List Char → Bool
  | [], _ => true
  | _ :: _, [] => false
  | a :: as, b :: bs => a == b && leadsWith as bs

/-- `containsSub hay needle`: `needle` occurs somewhere inside `hay`
(Python `needle in hay` on strings). -/
def containsSub : List Char → List Char → Bool
  | hay, needle =>
    leadsWith needle hay ||
      match hay with
      | [] => false
      | _ :: t => containsSub t needle

/-- A single quote character, U+0027. -/
def sq : String := String.mk [Char.ofNat 39]

/-- Python `repr` of a list of strings, e.g. `[` `x` in quotes `]`;
used by the engine when formatting the blocked-workflow error. -/
def pyReprList (xs : List String) : String :=
  "[" ++ String.intercalate ", " (xs.map (fun x => sq ++ x ++ sq)) ++ "]"

/-! ## task.py -/

/-- `TaskStatus` enumeration from `core/task.py`. -/
inductive TaskStatus
  | pending | queued | in_progress | under_review | needs_correction
  | retrying | completed | failed | cancelled
deriving DecidableEq

/-- `TaskPriority` enumeration from `core/task.py`. -/
inductive TaskPriority
  | low | medium | high | critical
deriving DecidableEq

/-- `TaskType` enumeration from `core/task.py`. -/
inductive TaskType
  | planning | development | testing | security_review | documentation
  | code_review | bug_fix | feature
deriving DecidableEq

/-- `TaskType(s)`: enum lookup by value; `Option.none` models the
`ValueError` raised on an unknown string. -/
def TaskType.ofValue (s : String) : Option TaskType :=
  if s = "planning" then Option.some .planning
  else if s = "development" then Option.some .development
  else if s = "testing" then Option.some .testing
  else if s = "security_review" then Option.some .security_review
  else if s = "documentation" then Option.some .documentation
  else if s = "code_review" then Option.some .code_review
  else if s = "bug_fix" then Option.some .bug_fix
  else if s = "feature" then Option.some .feature
  else Option.none

/-- `RetryStrategy` enumeration from `core/task.py`. -/
inductive RetryStrategy
  | none | immediate | linear | exponential
deriving DecidableEq

/-- `RetryConfig` dataclass from `core/task.py`. -/
structure RetryConfig where
  strategy : RetryStrategy := .exponential
  max_retries : Nat := 3
  base_delay_seconds : ℚ := 1
  max_delay_seconds : ℚ := 60
  retry_on_errors : List String := []
deriving DecidableEq

/-- `RetryConfig.calculate_delay`.  Only ever called with `attempt ≥ 1`
(the post-increment attempt counter). -/
def RetryConfig.calculate_delay (c : RetryConfig) (attempt : Nat) : ℚ :=
  match c.strategy with
  | .none => 0
  | .immediate => 0
  | .linear => min (c.base_delay_seconds * attempt) c.max_delay_seconds
  | .exponential => min (c.base_delay_seconds * 2 ^ (attempt - 1)) c.max_delay_seconds

/-- `RetryConfig.should_retry`. -/
def RetryConfig.should_retry (c : RetryConfig) (error_message : Option String) : Bool :=
  if c.strategy = .none then false
  else if c.retry_on_errors = [] then true
  else
    match error_message with
    | Option.none => true
    | Option.some msg =>
        c.retry_on_errors.any (fun err => containsSub (lowerStr msg) (lowerStr err))

/-- One entry of `RetryState.errors`: attempt number, error text, timestamp. -/
structure RetryError where
  attempt : Nat
  error : String
  timestamp : ℚ
deriving DecidableEq

/-- `RetryState` dataclass from `core/task.py`. -/
structure RetryState where
  attempt : Nat := 0
  last_error : Option String := Option.none
  last_attempt_at : Option ℚ := Option.none
  next_retry_at : Option ℚ := Option.none
  errors : List RetryError := []
deriving DecidableEq

/-- `RetryState.record_attempt`.  The error record is appended only for a
truthy (non-empty) message, mirroring `if error_message:`. -/
def RetryState.record_attempt (s : RetryState) (error_message : Option String)
    (now : ℚ) : RetryState :=
  let s := { s with
    attempt := s.attempt + 1
    last_error := error_message
    last_attempt_at := Option.some now }
  match error_message with
  | Option.some e =>
      if e ≠ "" then
        { s with errors := s.errors ++ [⟨s.attempt, e, now⟩] }
      else s
  | Option.none => s

/-- `RetryState.can_retry`. -/
def RetryState.can_retry (s : RetryState) (config : RetryConfig) : Bool :=
  decide (s.attempt < config.max_retries) && config.should_retry s.last_error

/-- `TaskResult` dataclass.  The `metadata={"retry_state": ...to_dict()}`
payload written by `record_failure` is modelled by the optional
`retry_state_meta` snapshot. -/
structure TaskResult where
  success : Bool
  error_message : Option String := Option.none
  retry_state_meta : Option RetryState := Option.none
deriving DecidableEq

/-- `Task` dataclass from `core/task.py` (fields the core operations read or
write; `id` and `created_at` are explicit because their Python defaults are
`uuid4()` and `datetime.now()`). -/
structure Task where
  title : String
  description : String := ""
  task_type : TaskType := .development
  priority : TaskPriority := .medium
  status : TaskStatus := .pending
  id : String
  dependencies : List String := []
  created_at : ℚ
  updated_at : ℚ := 0
  started_at : Option ℚ := Option.none
  completed_at : Option ℚ := Option.none
  result : Option TaskResult := Option.none
  correction_count : Nat := 0
  max_corrections : Nat := 3
  retry_config : RetryConfig := {}
  retry_state : RetryState := {}
deriving DecidableEq

/-- `Task.can_start`: every dependency id is in the completed set. -/
def Task.can_start (t : Task) (completed_tasks : List String) : Bool :=
  t.dependencies.all (fun dep => completed_tasks.contains dep)

/-- `Task.needs_more_corrections`. -/
def Task.needs_more_corrections (t : Task) : Bool :=
  decide (t.correction_count < t.max_corrections)

/-- `Task.can_retry`. -/
def Task.can_retry (t : Task) : Bool :=
  t.retry_state.can_retry t.retry_config

/-- `Task.record_failure`. -/
def Task.record_failure (t : Task) (error_message : Option String) (now : ℚ) : Task :=
  let st := t.retry_state.record_attempt error_message now
  let t := { t with retry_state := st, updated_at := now }
  if t.can_retry then
    let delay := t.retry_config.calculate_delay t.retry_state.attempt
    { t with
      retry_state := { st with next_retry_at := Option.some (now + delay) }
      status := .retrying }
  else
    { t with
      status := .failed
      result := Option.some
        { success := false
          error_message := error_message
          retry_state_meta := Option.some st } }

/-- `Task.update_status`. -/
def Task.update_status (t : Task) (new_status : TaskStatus) (now : ℚ) : Task :=
  let t := { t with status := new_status, updated_at := now }
  if new_status = .in_progress ∧ t.started_at = Option.none then
    { t with started_at := Option.some now }
  else if new_status = .completed then
    { t with completed_at := Option.some now }
  else t

/-- `TaskQueue`: `_tasks` is an insertion-ordered id-keyed dict, modelled as
the list of its values; `_completed_tasks` is the completed id set. -/
structure TaskQueue where
  tasks : List Task := []
  completed : List String := []
deriving DecidableEq

/-- The `ready_tasks` list computed inside `TaskQueue.get_next_task`. -/
def TaskQueue.readyTasks (q : TaskQueue) : List Task :=
  q.tasks.filter (fun t => decide (t.status = .pending) && t.can_start q.completed)

/-- The `priority_order` mapping inside `TaskQueue.get_next_task`
(critical is smallest, i.e. sorts first). -/
def priorityOrder : TaskPriority → Nat
  | .critical => 0
  | .high => 1
  | .medium => 2
  | .low => 3

/-- The strict sort key comparison used by `ready_tasks.sort`:
`(priority_order, created_at)` lexicographically. -/
def beats (a b : Task) : Bool :=
  decide (priorityOrder a.priority < priorityOrder b.priority) ||
    (decide (priorityOrder a.priority = priorityOrder b.priority) &&
      decide (a.created_at < b.created_at))

/-- `TaskQueue.get_next_task`: the head of the stable sort of `ready_tasks`
by `(priority_order, created_at)` — equivalently, the first element of
`ready_tasks` whose key no later element strictly beats. -/
def TaskQueue.get_next_task (q : TaskQueue) : Option Task :=
  match q.readyTasks with
  | [] => Option.none
  | t :: ts => Option.some (ts.foldl (fun best c => if beats c best then c else best) t)

/-- `TaskQueue.mark_failed`: record the failure on the task (if present) and
report whether a retry was scheduled.  Returns the updated queue. -/
def TaskQueue.mark_failed (q : TaskQueue) (task_id : String)
    (error_message : Option String) (now : ℚ) : TaskQueue × Bool :=
  match q.tasks.find? (fun t => t.id = task_id) with
  | Option.none => (q, false)
  | Option.some t =>
      let t := t.record_failure error_message now
      ({ q with tasks := q.tasks.map (fun u => if u.id = task_id then t else u) },
       t.status = .retrying)

/-! ## contracts/evaluation_contract.py -/

/-- `EvaluationSeverity` enumeration. -/
inductive EvaluationSeverity
  | info | warning | error | critical
deriving DecidableEq

/-- `EvaluationFinding` dataclass (fields read by the correction loop). -/
structure EvaluationFinding where
  category : String
  message : String
  severity : EvaluationSeverity := .info
deriving DecidableEq

/-- `EvaluationResult` dataclass. -/
structure EvaluationResult where
  evaluator_name : String
  passed : Bool
  score : ℚ := 0
  findings : List EvaluationFinding := []
  needs_correction : Bool := false
  correction_suggestions : List String := []
deriving DecidableEq

/-! ## core/correction_loop.py -/

/-- `CorrectionStatus` enumeration. -/
inductive CorrectionStatus
  | pending | evaluating | correcting | completed | max_iterations_reached | failed
deriving DecidableEq

/-- `CorrectionIteration` dataclass. -/
structure CorrectionIteration where
  iteration_number : Nat
  evaluation_result : EvaluationResult
  correction_applied : Option String := Option.none
deriving DecidableEq

/-- `CorrectionLoopResult` dataclass, generic in the output payload type. -/
structure CorrectionLoopResult (α : Type) where
  success : Bool
  final_output : α
  iterations : List CorrectionIteration := []
  total_iterations : Nat := 0
  status : CorrectionStatus := .completed
deriving DecidableEq

/-- `CorrectionLoop`, generic in the output payload type `α` and the
evaluation context type `κ`.  An evaluator is its (pure) `evaluate` method;
`correction_handlers` is keyed by category and only ever tested for presence
by `_apply_corrections` (the source never invokes the stored callable), so
the dict is modelled by its key list. -/
structure CorrectionLoop (α κ : Type) where
  evaluators : List (α → κ → EvaluationResult) := []
  max_iterations : Nat := 3
  min_passing_score : ℚ := 8 / 10
  correction_handlers : List String := []

/-- `CorrectionLoop._evaluate_all`. -/
def CorrectionLoop.evaluate_all {α κ : Type} (loop : CorrectionLoop α κ)
    (output : α) (context : κ) : List EvaluationResult :=
  loop.evaluators.map (fun ev => ev output context)

/-- `CorrectionLoop._combine_results`. -/
def combine_results (results : List EvaluationResult) : EvaluationResult :=
  match results with
  | [] => { evaluator_name := "combined", passed := true, score := 1 }
  | _ :: _ =>
    { evaluator_name := "combined"
      passed := results.all (fun r => r.passed)
      score := (results.map (fun r => r.score)).sum / results.length
      findings := results.flatMap (fun r => r.findings)
      needs_correction := results.any (fun r => r.needs_correction)
      correction_suggestions := results.flatMap (fun r => r.correction_suggestions) }

/-- `CorrectionLoop._apply_corrections`: for each error/critical finding with
a registered handler record a description; the output itself is untouched. -/
def CorrectionLoop.apply_corrections {α κ : Type} (loop : CorrectionLoop α κ)
    (evaluation_result : EvaluationResult) : String :=
  let applied := evaluation_result.findings.filterMap (fun f =>
    if (f.severity = .error ∨ f.severity = .critical) ∧
        loop.correction_handlers.contains f.category then
      Option.some ("Applied correction for " ++ f.category ++ ": " ++ f.message)
    else Option.none)
  let applied := if applied = [] then ["No automatic corrections available"] else applied
  String.intercalate "; " applied

/-- Body of `CorrectionLoop.run`: `remaining` iterations are left out of
`max_iterations`, `done` iterations have run, `acc` is the iteration
history so far.  Returns the updated task together with the loop result. -/
def CorrectionLoop.runFrom {α κ : Type} (loop : CorrectionLoop α κ)
    (context : κ) (now : ℚ) :
    Nat → Nat → Task → α → List CorrectionIteration →
    Task × CorrectionLoopResult α
  | 0, _, task, current, acc =>
      (task.update_status .failed now,
       { success := false
         final_output := current
         iterations := acc
         total_iterations := loop.max_iterations
         status := .max_iterations_reached })
  | remaining + 1, done, task, current, acc =>
      let combined := combine_results (loop.evaluate_all current context)
      if combined.passed ∧ loop.min_passing_score ≤ combined.score then
        (task,
         { success := true
           final_output := current
           iterations := acc ++ [{ iteration_number := done + 1, evaluation_result := combined }]
           total_iterations := done + 1
           status := .completed })
      else if ¬ combined.needs_correction then
        (task,
         { success := combined.passed
           final_output := current
           iterations := acc ++ [{ iteration_number := done + 1, evaluation_result := combined }]
           total_iterations := done + 1
           status := .completed })
      else
        let corr := loop.apply_corrections combined
        let task :=
          ({ task with correction_count := task.correction_count + 1 } :
            Task).update_status .needs_correction now
        loop.runFrom context now remaining (done + 1) task current
          (acc ++ [{ iteration_number := done + 1
                     evaluation_result := combined
                     correction_applied := Option.some corr }])

/-- `CorrectionLoop.run`. -/
def CorrectionLoop.run {α κ : Type} (loop : CorrectionLoop α κ) (task : Task)
    (initial_output : α) (context : κ) (now : ℚ) :
    Task × CorrectionLoopResult α :=
  loop.runFrom context now loop.max_iterations 0 task initial_output []

/-! ## workflow/definition.py -/

/-- `WorkflowStatus` enumeration. -/
inductive WorkflowStatus
  | pending | running | paused | completed | failed | cancelled
deriving DecidableEq

/-- `WorkflowStepType` enumeration. -/
inductive WorkflowStepType
  | task | agent_action | conversation | condition | parallel | loop
  | wait | approval
deriving DecidableEq

/-- `WorkflowStepType.value`: the string payload of the enum member. -/
def WorkflowStepType.value : WorkflowStepType → String
  | .task => "task"
  | .agent_action => "agent_action"
  | .conversation => "conversation"
  | .condition => "condition"
  | .parallel => "parallel"
  | .loop => "loop"
  | .wait => "wait"
  | .approval => "approval"

/-- `WorkflowStepType(s)`: enum lookup by value; `Option.none` models the
`ValueError` raised on an unknown string. -/
def WorkflowStepType.ofValue (s : String) : Option WorkflowStepType :=
  if s = "task" then Option.some .task
  else if s = "agent_action" then Option.some .agent_action
  else if s = "conversation" then Option.some .conversation
  else if s = "condition" then Option.some .condition
  else if s = "parallel" then Option.some .parallel
  else if s = "loop" then Option.some .loop
  else if s = "wait" then Option.some .wait
  else if s = "approval" then Option.some .approval
  else Option.none

/-- Opaque string-keyed payload mapping (`dict[str, Any]` whose values the
core only copies or looks up). -/
abbrev StrMap := List (String × String)

/-- The dictionary a workflow step execution returns.  The TASK branch of
`WorkflowEngine._execute_task_step` produces `task_result`
(`{success, content, agent, artifacts}`, with `agent = None` and no
`artifacts` key on the no-agent path); the remaining step types produce
fixed-shape dictionaries modelled as `other_result` payloads. -/
inductive StepResult
  | task_result (success : Bool) (content : String) (agent : Option String)
      (artifacts : Option (List String))
  | other_result (step_type : WorkflowStepType) (fields : StrMap)
deriving DecidableEq

/-- `WorkflowStep` dataclass (`id` explicit: its Python default is
`uuid4()`). -/
structure WorkflowStep where
  name : String
  step_type : WorkflowStepType
  config : StrMap := []
  id : String
  dependencies : List String := []
  timeout_seconds : Option Int := Option.none
  condition : Option String := Option.none
  metadata : StrMap := []
  status : WorkflowStatus := .pending
  started_at : Option ℚ := Option.none
  completed_at : Option ℚ := Option.none
  result : Option StepResult := Option.none
  error : Option String := Option.none
deriving DecidableEq

/-- The dictionary produced by `WorkflowStep.to_dict`: exactly the keys the
source emits — note that `metadata` is NOT among them. -/
structure StepDict where
  id : String
  name : String
  step_type : String
  config : StrMap
  dependencies : List String
  timeout_seconds : Option Int
  status : String
  started_at : Option ℚ
  completed_at : Option ℚ
  error : Option String
deriving DecidableEq

/-- `WorkflowStatus.value`. -/
def WorkflowStatus.value : WorkflowStatus → String
  | .pending => "pending"
  | .running => "running"
  | .paused => "paused"
  | .completed => "completed"
  | .failed => "failed"
  | .cancelled => "cancelled"

/-- `WorkflowStep.to_dict`. -/
def WorkflowStep.to_dict (s : WorkflowStep) : StepDict :=
  { id := s.id
    name := s.name
    step_type := s.step_type.value
    config := s.config
    dependencies := s.dependencies
    timeout_seconds := s.timeout_seconds
    status := s.status.value
    started_at := s.started_at
    completed_at := s.completed_at
    error := s.error }

/-- `Workflow` dataclass (`id` explicit, default version `"1.0.0"`). -/
structure Workflow where
  name : String
  description : String := ""
  steps : List WorkflowStep := []
  id : String
  version : String := "1.0.0"
  status : WorkflowStatus := .pending
  created_at : ℚ := 0
  started_at : Option ℚ := Option.none
  completed_at : Option ℚ := Option.none
  vars : StrMap := []   -- source field `variables` (reserved word in Lean)
  input_schema : StrMap := []
  output_schema : StrMap := []
  metadata : StrMap := []
deriving DecidableEq

/-- The dictionary produced by `Workflow.to_dict`: exactly the keys the
source emits (workflow `metadata`, `input_schema`, `output_schema` are not
among them). -/
structure WorkflowDict where
  id : String
  name : String
  description : String
  version : String
  status : String
  steps : List StepDict
  vars : StrMap   -- source field `variables`
  created_at : ℚ
  started_at : Option ℚ
  completed_at : Option ℚ
deriving DecidableEq

/-- `Workflow.to_dict`. -/
def Workflow.to_dict (w : Workflow) : WorkflowDict :=
  { id := w.id
    name := w.name
    description := w.description
    version := w.version
    status := w.status.value
    steps := w.steps.map (fun s => s.to_dict)
    vars := w.vars
    created_at := w.created_at
    started_at := w.started_at
    completed_at := w.completed_at }

/-- The per-step reconstruction inside `Workflow.from_dict`: only id, name,
step_type, config, dependencies, timeout and metadata are read, and a
`to_dict`-shaped dictionary carries no `metadata` key, so the `.get`
default `{}` applies.  `Option.none` models the `ValueError` of an unknown
step-type string. -/
def stepFromDict (d : StepDict) : Option WorkflowStep :=
  match WorkflowStepType.ofValue d.step_type with
  | Option.none => Option.none
  | Option.some ty =>
      Option.some
        { id := d.id
          name := d.name
          step_type := ty
          config := d.config
          dependencies := d.dependencies
          timeout_seconds := d.timeout_seconds
          metadata := [] }

/-- `Workflow.from_dict`. -/
def Workflow.from_dict (data : WorkflowDict) : Option Workflow :=
  match data.steps.mapM stepFromDict with
  | Option.none => Option.none
  | Option.some steps =>
      Option.some
        { id := data.id
          name := data.name
          description := data.description
          version := data.version
          steps := steps
          vars := data.vars }

/-- `Workflow.get_ready_steps`: every pending step whose dependencies are
all in the completed set. -/
def Workflow.get_ready_steps (w : Workflow) (completed_steps : List String) :
    List WorkflowStep :=
  w.steps.filter (fun s =>
    decide (s.status = .pending) &&
      s.dependencies.all (fun dep => completed_steps.contains dep))

/-- `WorkflowTemplates.feature_development`, with the six step ids made
explicit (the source draws them from `uuid4()`). -/
def feature_development (wid pid aid did tid sid cid : String) : Workflow :=
  { name := "Feature Development"
    description := "Standard workflow for developing a new feature"
    id := wid
    steps :=
      [ { name := "planning", step_type := .task, id := pid
          config := [("task_type", "planning"), ("agent", "PMAgent"),
                     ("description", "Plan and decompose the feature into tasks")] }
      , { name := "architecture", step_type := .task, id := aid
          config := [("task_type", "planning"), ("agent", "ArchitectAgent"),
                     ("description", "Design the architecture for the feature")]
          dependencies := [pid] }
      , { name := "development", step_type := .task, id := did
          config := [("task_type", "development"), ("agent", "DevAgent"),
                     ("description", "Implement the feature")]
          dependencies := [aid] }
      , { name := "testing", step_type := .task, id := tid
          config := [("task_type", "testing"), ("agent", "QAAgent"),
                     ("description", "Test the implementation")]
          dependencies := [did] }
      , { name := "security_review", step_type := .task, id := sid
          config := [("task_type", "security_review"), ("agent", "SecurityAgent"),
                     ("description", "Security review of the implementation")]
          dependencies := [did] }
      , { name := "documentation", step_type := .task, id := cid
          config := [("task_type", "documentation"), ("agent", "DocsAgent"),
                     ("description", "Document the feature")]
          dependencies := [tid, sid] } ] }

/-! ## workflow/engine.py -/

/-- `AgentResponse` dataclass (fields the engine reads). -/
structure AgentResponse where
  agent_name : String
  content : String
  success : Bool := true
  artifacts : List String := []
  needs_correction : Bool := false
deriving DecidableEq

/-- An agent as the engine consumes it: its `handle_task` coroutine, which
either returns a response or raises (modelled by `Except`). -/
def EngineAgent : Type := Task → Except String AgentResponse

/-- `WorkflowEngine._execute_step` composed with the per-type dispatchers
(`_execute_task_step` etc.).  Propagated exceptions are `Except.error`. -/
def runStep (agents : List (String × EngineAgent)) (step : WorkflowStep)
    (now : ℚ) : Except String StepResult :=
  match step.step_type with
  | .task =>
      let agent_name := step.config.lookup "agent"
      let task_type := (step.config.lookup "task_type").getD "development"
      let description := (step.config.lookup "description").getD step.name
      match agent_name with
      | Option.some an =>
          if an ≠ "" then
            match agents.lookup an with
            | Option.some ag =>
                match TaskType.ofValue task_type with
                | Option.none =>
                    Except.error (sq ++ task_type ++ sq ++ " is not a valid TaskType")
                | Option.some ty =>
                    match ag { title := step.name, description := description,
                               task_type := ty, id := "", created_at := now } with
                    | Except.error e => Except.error e
                    | Except.ok resp =>
                        Except.ok (.task_result resp.success resp.content
                          (Option.some an) (Option.some resp.artifacts))
            | Option.none =>
                Except.ok (.task_result true
                  ("Task step " ++ sq ++ step.name ++ sq ++ " completed (no agent assigned)")
                  Option.none Option.none)
          else
            Except.ok (.task_result true
              ("Task step " ++ sq ++ step.name ++ sq ++ " completed (no agent assigned)")
              Option.none Option.none)
      | Option.none =>
          Except.ok (.task_result true
            ("Task step " ++ sq ++ step.name ++ sq ++ " completed (no agent assigned)")
            Option.none Option.none)
  | .agent_action =>
      let an := (step.config.lookup "agent").getD ""
      let action := (step.config.lookup "action").getD "process"
      if an ≠ "" ∧ (agents.lookup an).isSome then
        Except.ok (.other_result .agent_action
          [("success", "True"), ("agent", an), ("action", action)])
      else
        Except.ok (.other_result .agent_action
          [("success", "False"),
           ("error", "Agent " ++ sq ++ an ++ sq ++ " not found")])
  | .conversation =>
      Except.ok (.other_result .conversation
        [("success", "True"),
         ("topic", (step.config.lookup "topic").getD "Discussion"),
         ("turns", "0")])
  | .condition =>
      Except.ok (.other_result .condition
        [("success", "True"), ("result", "True")])
  | .parallel =>
      Except.ok (.other_result .parallel [("success", "True")])
  | .wait =>
      Except.ok (.other_result .wait
        [("success", "True"),
         ("waited_seconds", (step.config.lookup "seconds").getD "0")])
  | ty =>
      Except.ok (.other_result ty [("status", "completed")])

/-- Mark a launched step with its outcome, as the result-processing block of
`WorkflowEngine.execute` does (`started_at` was set by `_execute_step`). -/
def applyOutcome (s : WorkflowStep) (o : Except String StepResult) (now : ℚ) :
    WorkflowStep :=
  match o with
  | Except.error e =>
      { s with status := .failed, error := Option.some e,
               started_at := Option.some now }
  | Except.ok r =>
      { s with status := .completed, result := Option.some r,
               started_at := Option.some now, completed_at := Option.some now }

/-- The mutable state of one `WorkflowEngine.execute` call: the step list
(statuses evolve in place), the `completed_steps` set, the `outputs` dict
(keyed by step name) and the `step_results` dict (keyed by step id). -/
structure ExecState where
  steps : List WorkflowStep
  completed : List String
  outputs : List (String × StepResult)
  step_results : List (String × Except String StepResult)

/-- The ready frontier of the current engine state. -/
def ExecState.ready (st : ExecState) : List WorkflowStep :=
  st.steps.filter (fun s =>
    decide (s.status = .pending) &&
      s.dependencies.all (fun dep => st.completed.contains dep))

/-- One full `while True` body is inlined in this fuel-indexed recursion over
the engine loop.  The `Option String` component is the exception raised by
the blocked-workflow check (caught by `execute`); fuel exhaustion (which
cannot occur for fuel > number of pending steps, as every launched step
leaves `pending`) behaves as `break`. -/
def execLoop (agents : List (String × EngineAgent)) (maxPar : Nat) (now : ℚ) :
    Nat → ExecState → ExecState × Option String
  | 0, st => (st, Option.none)
  | fuel + 1, st =>
      let ready := st.ready
      if ready.isEmpty then
        if (st.steps.filter (fun s => decide (s.status = .pending))).isEmpty then
          (st, Option.none)
        else
          let failed_deps := st.steps.filter (fun s => decide (s.status = .failed))
          if failed_deps.isEmpty then (st, Option.none)
          else
            (st, Option.some ("Workflow blocked: steps failed: " ++
              pyReprList (failed_deps.map (fun s => s.name))))
      else
        let launch := ready.take maxPar
        let outs := launch.map (fun s => (s.id, runStep agents s now))
        let steps := st.steps.map (fun s =>
          match outs.lookup s.id with
          | Option.some o => applyOutcome s o now
          | Option.none => s)
        let completed := st.completed ++ launch.filterMap (fun s =>
          match runStep agents s now with
          | Except.ok _ => Option.some s.id
          | Except.error _ => Option.none)
        let outputs := st.outputs ++ launch.filterMap (fun s =>
          match runStep agents s now with
          | Except.ok r => Option.some (s.name, r)
          | Except.error _ => Option.none)
        execLoop agents maxPar now fuel
          { steps := steps, completed := completed, outputs := outputs,
            step_results := st.step_results ++ outs }

/-- `dict.update`: merge `inputs` into the workflow variables, later values
winning. -/
def mergeVars (base inputs : StrMap) : StrMap :=
  base.map (fun kv =>
    match inputs.lookup kv.1 with
    | Option.some v => (kv.1, v)
    | Option.none => kv) ++
  inputs.filter (fun kv => (base.lookup kv.1).isNone)

/-- `WorkflowExecutionResult` (fields the properties concern). -/
structure WorkflowExecutionResult where
  workflow_id : String
  success : Bool
  status : WorkflowStatus
  outputs : List (String × StepResult)
  error_message : Option String
deriving DecidableEq

/-- `WorkflowEngine.execute`: run the loop to completion and finalize.
Returns the workflow (with its mutated steps) and the execution result. -/
def WorkflowEngine.execute (agents : List (String × EngineAgent))
    (maxPar : Nat) (w : Workflow) (inputs : StrMap) (now : ℚ) :
    Workflow × WorkflowExecutionResult :=
  let w := { w with status := .running, started_at := Option.some now,
                    vars := mergeVars w.vars inputs }
  let st0 : ExecState :=
    { steps := w.steps, completed := [], outputs := [], step_results := [] }
  let (st, exc) := execLoop agents maxPar now (w.steps.length + 1) st0
  match exc with
  | Option.some msg =>
      let w := { w with steps := st.steps, status := .failed,
                        completed_at := Option.some now }
      (w, { workflow_id := w.id, success := false, status := .failed,
            outputs := st.outputs, error_message := Option.some msg })
  | Option.none =>
      let failed_steps := st.steps.filter (fun s => decide (s.status = .failed))
      if failed_steps.isEmpty then
        let w := { w with steps := st.steps, status := .completed,
                          completed_at := Option.some now }
        (w, { workflow_id := w.id, success := true, status := .completed,
              outputs := st.outputs, error_message := Option.none })
      else
        let w := { w with steps := st.steps, status := .failed,
                          completed_at := Option.some now }
        (w, { workflow_id := w.id, success := false, status := .failed,
              outputs := st.outputs,
              error_message := Option.some ("Steps failed: " ++
                pyReprList (failed_steps.map (fun s => s.name))) })

/-! ## core/conversation.py and Orchestrator.send_message -/

/-- `ConversationStatus` enumeration. -/
inductive ConversationStatus
  | active | paused | completed | failed
deriving DecidableEq

/-- `AgentMessage` dataclass (fields `send_message` populates; the
`metadata` carries the conversation id). -/
structure AgentMessage where
  sender : String
  recipient : String
  content : String
  message_type : String := "text"
  metadata : StrMap := []
deriving DecidableEq

/-- `ConversationTurn` dataclass. -/
structure ConversationTurn where
  speaker : String
  message : AgentMessage
  response : Option AgentResponse := Option.none
  timestamp : ℚ := 0
deriving DecidableEq

/-- `Conversation` dataclass (`id` explicit: Python default `uuid4()`). -/
structure Conversation where
  topic : String
  participants : List String := []
  status : ConversationStatus := .active
  id : String
  turns : List ConversationTurn := []
  created_at : ℚ := 0
  updated_at : ℚ := 0
  max_turns : Nat := 50
deriving DecidableEq

/-- `Conversation.is_active`. -/
def Conversation.is_active (c : Conversation) : Bool :=
  decide (c.status = .active)

/-- `Conversation.add_turn`: append the turn, then force `completed` once
`len(turns) ≥ max_turns`. -/
def Conversation.add_turn (c : Conversation) (turn : ConversationTurn)
    (now : ℚ) : Conversation :=
  let c := { c with turns := c.turns ++ [turn], updated_at := now }
  if c.turns.length ≥ c.max_turns then { c with status := .completed } else c

/-- An agent as `send_message` consumes it: its `process_message`
coroutine. -/
def ChatAgent : Type := AgentMessage → AgentResponse

/-- The slice of `Orchestrator` state that `send_message` reads:
the `_agents` registry and the conversation manager dictionary. -/
structure Orchestrator where
  agents : List (String × ChatAgent)
  conversations : List (String × Conversation)

/-- `Orchestrator.send_message`.  The source reads the conversation and the
registry, invokes the recipient and returns its response; nothing in the
source mutates the conversation (in particular no turn is appended), so the
embedding returns only the optional response. -/
def Orchestrator.send_message (o : Orchestrator) (conversation_id sender
    recipient content : String) : Option AgentResponse :=
  match o.conversations.lookup conversation_id with
  | Option.none => Option.none
  | Option.some conversation =>
      if ¬ conversation.is_active then Option.none
      else
        match o.agents.lookup recipient with
        | Option.none => Option.none
        | Option.some recipient_agent =>
            Option.some (recipient_agent
              { sender := sender, recipient := recipient, content := content,
                metadata := [("conversation_id", conversation_id)] })

/-! ## Concrete instances (scenario inputs for witnesses and
counterexamples) -/

/-- The lexicographic preorder induced by the scheduler sort key
`(priority_order, created_at)`: `keyLe a b` states that `a` sorts no later
than `b`. -/
def keyLe (a b : Task) : Prop :=
  priorityOrder a.priority ≤ priorityOrder b.priority ∧
    (priorityOrder a.priority = priorityOrder b.priority → a.created_at ≤ b.created_at)

/-- Scenario 1 of the spec: task A, low priority, no dependencies. -/
def taskA : Task := { title := "A", id := "A", priority := .low, created_at := 0 }

/-- Scenario 1 of the spec: task B, critical priority, depends on A. -/
def taskB : Task :=
  { title := "B", id := "B", priority := .critical, dependencies := ["A"],
    created_at := 1 }

/-- Scenario 1 of the spec: task C, high priority, no dependencies. -/
def taskC : Task := { title := "C", id := "C", priority := .high, created_at := 2 }

/-- Scenario 1 queue holding A, B, C with nothing completed. -/
def queueABC : TaskQueue := { tasks := [taskA, taskB, taskC] }

/-- Scenario 2 retry configuration: exponential, base 1.0, max_retries 3,
max_delay 10.0. -/
def cfgExp : RetryConfig :=
  { strategy := .exponential, max_retries := 3, base_delay_seconds := 1,
    max_delay_seconds := 10 }

/-- Scenario 2 task before any failure. -/
def taskR0 : Task := { title := "R", id := "R", created_at := 0, retry_config := cfgExp }

/-- Scenario 2 after the first `mark_failed` (at time 0). -/
def taskR1 : Task := taskR0.record_failure (Option.some "err") 0

/-- Scenario 2 after the second `mark_failed` (at time 100). -/
def taskR2 : Task := taskR1.record_failure (Option.some "err") 100

/-- Scenario 2 after the third `mark_failed` (at time 200). -/
def taskR3 : Task := taskR2.record_failure (Option.some "err") 200

/-- Scenario 2 after the fourth `mark_failed` (at time 300). -/
def taskR4 : Task := taskR3.record_failure (Option.some "err") 300

/-- Scenario 4 evaluator: always `passed=false, score=0.5,
needs_correction=true`. -/
def failEval : Unit → Unit → EvaluationResult := fun _ _ =>
  { evaluator_name := "always", passed := false, score := 1 / 2,
    needs_correction := true }

/-- Scenario 4 correction loop: `max_iterations=3, min_passing_score=0.8`. -/
def loop3 : CorrectionLoop Unit Unit :=
  { evaluators := [failEval], max_iterations := 3, min_passing_score := 8 / 10 }

/-- A correction loop with `max_iterations = 4` against the default
`max_corrections = 3` of its task. -/
def loop4 : CorrectionLoop Unit Unit :=
  { evaluators := [failEval], max_iterations := 4, min_passing_score := 8 / 10 }

/-- A fresh task fed to the correction loop (default `max_corrections = 3`,
`correction_count = 0`). -/
def taskCorr : Task := { title := "corr", id := "corr", created_at := 0 }

/-- A workflow step carrying non-empty metadata. -/
def stepM : WorkflowStep :=
  { name := "s", step_type := .task, id := "s1", metadata := [("k", "v")] }

/-- A workflow holding `stepM`, for the serialization round-trip. -/
def wfM : Workflow := { name := "w", id := "w1", steps := [stepM], vars := [("x", "1")] }

/-- An agent whose `handle_task` returns successfully. -/
def okAgent (nm : String) : EngineAgent := fun _ =>
  Except.ok { agent_name := nm, content := "done" }

/-- The development agent of scenario 6: its `handle_task` raises. -/
def devRaises : EngineAgent := fun _ => Except.error "boom"

/-- Scenario 6 agent registry: every feature-development agent succeeds
except `DevAgent`, which raises. -/
def featAgents : List (String × EngineAgent) :=
  [("PMAgent", okAgent "PMAgent"), ("ArchitectAgent", okAgent "ArchitectAgent"),
   ("DevAgent", devRaises), ("QAAgent", okAgent "QAAgent"),
   ("SecurityAgent", okAgent "SecurityAgent"), ("DocsAgent", okAgent "DocsAgent")]

/-- The feature-development workflow with fixed step ids. -/
def featWf : Workflow :=
  feature_development "wf" "st-plan" "st-arch" "st-dev" "st-test" "st-sec" "st-doc"

/-- Scenario 6 execution: the engine runs `featWf` against `featAgents`. -/
def featRun : Workflow × WorkflowExecutionResult :=
  WorkflowEngine.execute featAgents 5 featWf [] 0

/-- Scenario 3 retry configuration: `retry_on_errors=["timeout"]`. -/
def cfgTimeout : RetryConfig := { retry_on_errors := ["timeout"] }

/-- A chat agent echoing the message content back. -/
def echoAgent : ChatAgent := fun m =>
  { agent_name := m.recipient, content := m.content }

/-- An active conversation with no turns yet. -/
def convC : Conversation :=
  { topic := "t", id := "c", participants := ["alice", "bob"] }

/-- An orchestrator with `bob` registered and conversation `c` active. -/
def orch9 : Orchestrator :=
  { agents := [("bob", echoAgent)], conversations := [("c", convC)] }

/-- A passing evaluation result with one error-severity finding. -/
def evalR1 : EvaluationResult :=
  { evaluator_name := "e1", passed := true, score := 1,
    findings := [{ category := "cat1", message := "m1", severity := .error }],
    needs_correction := false, correction_suggestions := ["s1"] }

/-- A failing evaluation result demanding correction. -/
def evalR2 : EvaluationResult :=
  { evaluator_name := "e2", passed := false, score := 1 / 2,
    needs_correction := true, correction_suggestions := ["s2"] }

/-- The always-failing evaluator over string outputs. -/
def failEvalS : String → Unit → EvaluationResult := fun _ _ =>
  { evaluator_name := "always", passed := false, score := 1 / 2,
    needs_correction := true }

/-- A correction loop over string outputs with the always-failing
evaluator. -/
def loopS : CorrectionLoop String Unit :=
  { evaluators := [failEvalS], max_iterations := 3, min_passing_score := 8 / 10 }

/-- The blocked-workflow invariant of the engine loop, for a failing step
id `fid` and a set `S` of step ids transitively depending on `fid`: every
step carrying id `fid` raises when launched and `fid` never enters the
completed set; no id of `S` enters the completed set; and every step whose
id lies in `S` is still pending with some dependency equal to `fid` or
again in `S`. -/
def FailBlocked (agents : List (String × EngineAgent)) (now : ℚ)
    (fid : String) (S : List String) (st : ExecState) : Prop :=
  (∀ s ∈ st.steps, s.id = fid → (runStep agents s now).isOk = false) ∧
  fid ∉ st.completed ∧
  (∀ i ∈ S, i ∉ st.completed) ∧
  (∀ s ∈ st.steps, s.id ∈ S →
    s.status = .pending ∧
      s.dependencies.any (fun d => d == fid || S.contains d) = true)

/-! ## Lemmas about the scheduler sort key -/

/-- If `a` does not strictly beat `b` then `b` sorts no later than `a`. -/
theorem keyLe_of_beats_false {a b : Task} (h : beats a b = false) : keyLe b a := by
  simp only [beats, Bool.or_eq_false_iff, Bool.and_eq_false_iff,
    decide_eq_false_iff_not] at h
  obtain ⟨h1, h2⟩ := h
  refine ⟨Nat.le_of_not_lt h1, fun he => ?_⟩
  rcases h2 with h2 | h2
  · exact absurd he.symm h2
  · exact le_of_not_lt h2

/-- If `a` strictly beats `b` then `a` sorts no later than `b`. -/
theorem keyLe_of_beats_true {a b : Task} (h : beats a b = true) : keyLe a b := by
  simp only [beats, Bool.or_eq_true, Bool.and_eq_true, decide_eq_true_eq] at h
  rcases h with h | ⟨h1, h2⟩
  · exact ⟨Nat.le_of_lt h, fun he => absurd he (Nat.ne_of_lt h)⟩
  · exact ⟨Nat.le_of_eq h1, fun _ => le_of_lt h2⟩

/-- `keyLe` is transitive. -/
theorem keyLe_trans {a b c : Task} (hab : keyLe a b) (hbc : keyLe b c) :
    keyLe a c := by
  refine ⟨le_trans hab.1 hbc.1, fun he => ?_⟩
  have h1 : priorityOrder a.priority = priorityOrder b.priority :=
    le_antisymm hab.1 (he ▸ hbc.1)
  have h2 : priorityOrder b.priority = priorityOrder c.priority := h1 ▸ he
  exact le_trans (hab.2 h1) (hbc.2 h2)

/-- The fold inside `get_next_task` returns an element of `t :: ts`. -/
theorem foldl_best_mem (t : Task) (ts : List Task) :
    ts.foldl (fun best c => if beats c best then c else best) t ∈ t :: ts := by
  induction ts generalizing t with
  | nil => simp
  | cons c ts ih =>
      simp only [List.foldl_cons]
      have h := ih (if beats c t then c else t)
      by_cases hb : beats c t = true
      · rw [if_pos hb] at h ⊢
        rcases List.mem_cons.mp h with h | h
        · exact List.mem_cons.mpr (Or.inr (List.mem_cons.mpr (Or.inl h)))
        · exact List.mem_cons.mpr (Or.inr (List.mem_cons.mpr (Or.inr h)))
      · rw [if_neg hb] at h ⊢
        rcases List.mem_cons.mp h with h | h
        · exact List.mem_cons.mpr (Or.inl h)
        · exact List.mem_cons.mpr (Or.inr (List.mem_cons.mpr (Or.inr h)))

/-- The fold inside `get_next_task` sorts no later than the seed and every
folded element. -/
theorem foldl_best_le (t : Task) (ts : List Task) :
    keyLe (ts.foldl (fun best c => if beats c best then c else best) t) t ∧
      ∀ u ∈ ts, keyLe (ts.foldl (fun best c => if beats c best then c else best) t) u := by
  induction ts generalizing t with
  | nil =>
      exact ⟨⟨le_refl _, fun _ => le_refl _⟩, by simp⟩
  | cons c ts ih =>
      simp only [List.foldl_cons]
      obtain ⟨ih1, ih2⟩ := ih (if beats c t then c else t)
      by_cases hb : beats c t = true
      · simp only [hb, if_pos] at ih1 ih2 ⊢
        have hct : keyLe c t := keyLe_of_beats_true hb
        refine ⟨keyLe_trans ih1 hct, fun u hu => ?_⟩
        rcases List.mem_cons.mp hu with h | h
        · exact h ▸ ih1
        · exact ih2 u h
      · simp only [Bool.not_eq_true] at hb
        simp only [hb, Bool.false_eq_true, if_false] at ih1 ih2 ⊢
        have htc : keyLe t c := keyLe_of_beats_false hb
        refine ⟨ih1, fun u hu => ?_⟩
        rcases List.mem_cons.mp hu with h | h
        · exact h ▸ keyLe_trans ih1 htc
        · exact ih2 u h

/-- A member of the ready list is a pending task all of whose dependency
ids are completed. -/
theorem mem_readyTasks {q : TaskQueue} {t : Task} (h : t ∈ q.readyTasks) :
    t.status = .pending ∧ ∀ dep ∈ t.dependencies, dep ∈ q.completed := by
  have hp := (List.mem_filter.mp h).2
  simp only [Bool.and_eq_true, decide_eq_true_eq, Task.can_start,
    List.all_eq_true] at hp
  exact ⟨hp.1, fun dep hd => List.mem_of_elem_eq_true (hp.2 dep hd)⟩

/-- C1.  `get_next_task` returns `none` exactly when no ready task exists
(ready: status pending and every dependency id in the completed set); a
returned task is ready — so in particular each of its dependency ids is
completed — and its sort key `(priority_order, created_at)` is no later
than every ready task's: its priority is maximal among ready tasks
(critical > high > medium > low encoded by `priorityOrder`, smaller is
stronger) with ties broken by earliest `created_at`. -/
theorem get_next_task_correct (q : TaskQueue) :
    (q.get_next_task = Option.none ↔ q.readyTasks = []) ∧
    ∀ t, q.get_next_task = Option.some t →
      t ∈ q.readyTasks ∧ t.status = .pending ∧
      (∀ dep ∈ t.dependencies, dep ∈ q.completed) ∧
      ∀ u ∈ q.readyTasks,
        priorityOrder t.priority ≤ priorityOrder u.priority ∧
        (priorityOrder t.priority = priorityOrder u.priority →
          t.created_at ≤ u.created_at) := by
  constructor
  · unfold TaskQueue.get_next_task
    cases h : q.readyTasks <;> simp
  · intro t ht
    unfold TaskQueue.get_next_task at ht
    cases h : q.readyTasks with
    | nil => rw [h] at ht; exact absurd ht (by simp)
    | cons a ts =>
        rw [h] at ht
        simp only [Option.some.injEq] at ht
        subst ht
        have hmem := foldl_best_mem a ts
        have hmemq : (ts.foldl (fun best c => if beats c best then c else best) a)
            ∈ q.readyTasks := by rw [h]; exact hmem
        have hrd := mem_readyTasks hmemq
        refine ⟨hmem, hrd.1, hrd.2, ?_⟩
        intro u hu
        have hl := foldl_best_le a ts
        rcases List.mem_cons.mp hu with rfl | hu'
        · exact ⟨hl.1.1, hl.1.2⟩
        · exact ⟨(hl.2 u hu').1, (hl.2 u hu').2⟩

/-- Witness for C1, scenario 1 of the spec: among A (low), B (critical,
blocked on A) and C (high), the scheduler returns C, and C is ready and
key-minimal. -/
theorem get_next_task_correct_witness :
    queueABC.get_next_task = Option.some taskC ∧
      (taskC ∈ queueABC.readyTasks ∧ taskC.status = .pending ∧
        (∀ dep ∈ taskC.dependencies, dep ∈ queueABC.completed) ∧
        ∀ u ∈ queueABC.readyTasks,
          priorityOrder taskC.priority ≤ priorityOrder u.priority ∧
          (priorityOrder taskC.priority = priorityOrder u.priority →
            taskC.created_at ≤ u.created_at)) :=
  ⟨by decide, (get_next_task_correct queueABC).2 taskC (by decide)⟩

/-- C7.  The retryable predicate: a `none` strategy is never retryable; for
any other strategy an empty `retry_on_errors` list makes every error
retryable, and a non-empty list makes an error retryable exactly when some
configured substring occurs case-insensitively in the error text. -/
theorem should_retry_correct (c : RetryConfig) (msg : String) :
    (c.strategy = .none → c.should_retry (Option.some msg) = false) ∧
    (c.strategy ≠ .none → c.retry_on_errors = [] →
      c.should_retry (Option.some msg) = true) ∧
    (c.strategy ≠ .none → c.retry_on_errors ≠ [] →
      (c.should_retry (Option.some msg) = true ↔
        ∃ err ∈ c.retry_on_errors,
          containsSub (lowerStr msg) (lowerStr err) = true)) := by
  refine ⟨fun h => ?_, fun h1 h2 => ?_, fun h1 h2 => ?_⟩
  · simp [RetryConfig.should_retry, h]
  · simp [RetryConfig.should_retry, h1, h2]
  · simp [RetryConfig.should_retry, h1, h2, List.any_eq_true]

/-- Witness for C7, scenario 3 of the spec: with
`retry_on_errors=["timeout"]` the message "Request timeout" is retryable
and "Bad credentials" is not. -/
theorem should_retry_correct_witness :
    cfgTimeout.should_retry (Option.some "Request timeout") = true ∧
      cfgTimeout.should_retry (Option.some "Bad credentials") = false :=
  ⟨((should_retry_correct cfgTimeout "Request timeout").2.2 (by decide)
      (by decide)).mpr (by decide),
   by decide⟩

/-- C8.  Combining a non-empty list of evaluation results: `passed` is the
conjunction of the `passed` flags, `score` the arithmetic mean,
`needs_correction` the disjunction of the flags, `findings` and
`correction_suggestions` the order-preserving concatenations. -/
theorem combine_results_correct (results : List EvaluationResult)
    (h : results ≠ []) :
    (combine_results results).passed = results.all (fun r => r.passed) ∧
    ((combine_results results).passed = true ↔ ∀ r ∈ results, r.passed = true) ∧
    (combine_results results).score =
      (results.map (fun r => r.score)).sum / results.length ∧
    (combine_results results).needs_correction =
      results.any (fun r => r.needs_correction) ∧
    ((combine_results results).needs_correction = true ↔
      ∃ r ∈ results, r.needs_correction = true) ∧
    (combine_results results).findings = results.flatMap (fun r => r.findings) ∧
    (combine_results results).correction_suggestions =
      results.flatMap (fun r => r.correction_suggestions) := by
  cases results with
  | nil => exact absurd rfl h
  | cons a rs =>
      refine ⟨rfl, ?_, rfl, rfl, ?_, rfl, rfl⟩
      · simp [combine_results, List.all_eq_true]
      · simp [combine_results, List.any_eq_true]

/-- Witness for C8 at the two-element list `[evalR1, evalR2]`. -/
theorem combine_results_correct_witness :
    [evalR1, evalR2] ≠ [] ∧
      ((combine_results [evalR1, evalR2]).passed =
        [evalR1, evalR2].all (fun r => r.passed) ∧
      ((combine_results [evalR1, evalR2]).passed = true ↔
        ∀ r ∈ [evalR1, evalR2], r.passed = true) ∧
      (combine_results [evalR1, evalR2]).score =
        ([evalR1, evalR2].map (fun r => r.score)).sum / ([evalR1, evalR2] : List EvaluationResult).length ∧
      (combine_results [evalR1, evalR2]).needs_correction =
        [evalR1, evalR2].any (fun r => r.needs_correction) ∧
      ((combine_results [evalR1, evalR2]).needs_correction = true ↔
        ∃ r ∈ [evalR1, evalR2], r.needs_correction = true) ∧
      (combine_results [evalR1, evalR2]).findings =
        [evalR1, evalR2].flatMap (fun r => r.findings) ∧
      (combine_results [evalR1, evalR2]).correction_suggestions =
        [evalR1, evalR2].flatMap (fun r => r.correction_suggestions)) :=
  ⟨by decide, combine_results_correct [evalR1, evalR2] (by decide)⟩

/-- The loop body never replaces the current output: every exit path of
`runFrom` carries it into `final_output` unchanged. -/
theorem runFrom_final_output {α κ : Type} (loop : CorrectionLoop α κ)
    (context : κ) (now : ℚ) :
    ∀ (remaining done : Nat) (task : Task) (current : α)
      (acc : List CorrectionIteration),
      (loop.runFrom context now remaining done task current acc).2.final_output
        = current := by
  intro remaining
  induction remaining with
  | zero => intro done task current acc; rfl
  | succ n ih =>
      intro done task current acc
      unfold CorrectionLoop.runFrom
      by_cases h1 : (combine_results (loop.evaluate_all current context)).passed
          ∧ loop.min_passing_score ≤
            (combine_results (loop.evaluate_all current context)).score
      · rw [if_pos h1]
      · rw [if_neg h1]
        by_cases h2 : ¬ (combine_results (loop.evaluate_all current context)).needs_correction
        · rw [if_pos h2]
        · rw [if_neg h2]
          exact ih _ _ _ _

/-- C10.  `CorrectionLoop.run` never rewrites the output: on every path the
result's `final_output` is the initial output, and applying corrections
with no firing handler merely records "No automatic corrections
available". -/
theorem run_output_unchanged (α κ : Type) (loop : CorrectionLoop α κ)
    (task : Task) (initial_output : α) (context : κ) (now : ℚ) :
    (loop.run task initial_output context now).2.final_output
        = initial_output ∧
    ∀ er : EvaluationResult,
      (∀ f ∈ er.findings,
        ¬((f.severity = .error ∨ f.severity = .critical) ∧
          loop.correction_handlers.contains f.category)) →
      loop.apply_corrections er = "No automatic corrections available" := by
  refine ⟨runFrom_final_output loop context now _ _ _ _ _, fun er hf => ?_⟩
  unfold CorrectionLoop.apply_corrections
  have he : er.findings.filterMap (fun f =>
      if (f.severity = .error ∨ f.severity = .critical) ∧
          loop.correction_handlers.contains f.category then
        Option.some ("Applied correction for " ++ f.category ++ ": " ++ f.message)
      else Option.none) = [] := by
    rw [List.filterMap_eq_nil_iff]
    intro f hmem
    rw [if_neg (hf f hmem)]
  rw [he]
  rfl

/-- Witness for C10: the always-failing string loop keeps its initial
output through all three iterations. -/
theorem run_output_unchanged_witness :
    (loopS.run taskCorr "out" () 0).2.final_output = "out" ∧
      loopS.apply_corrections
        { evaluator_name := "e", passed := false } =
        "No automatic corrections available" :=
  ⟨(run_output_unchanged String Unit loopS taskCorr "out" () 0).1,
   (run_output_unchanged String Unit loopS taskCorr "out" () 0).2
     { evaluator_name := "e", passed := false } (by decide)⟩

/-- `record_attempt` increments the attempt counter, stores the error as
`last_error` and leaves `next_retry_at` untouched. -/
theorem record_attempt_fields (s : RetryState) (err : Option String) (now : ℚ) :
    (s.record_attempt err now).attempt = s.attempt + 1 ∧
    (s.record_attempt err now).last_error = err ∧
    (s.record_attempt err now).next_retry_at = s.next_retry_at := by
  cases err with
  | none => exact ⟨rfl, rfl, rfl⟩
  | some e =>
      simp only [RetryState.record_attempt]
      split
      · exact ⟨rfl, rfl, rfl⟩
      · exact ⟨rfl, rfl, rfl⟩

/-- C2 (amended).  `mark_failed`/`record_failure` schedules a retry (status
retrying, `next_retry_at = now + delay(attempt)`) exactly when the
post-increment attempt count is below `max_retries` and the error is
retryable, and otherwise fails terminally, storing a failed `TaskResult`
carrying the retry-history snapshot and adding no new `next_retry_at`;
the queue's `mark_failed` reports true exactly on the retrying outcome.
Under `RetryConfig(strategy=EXPONENTIAL, base_delay=1.0, max_retries=3,
max_delay=10.0)` the first two calls leave status retrying with observed
delays 1.0 and 2.0, and already the third call (not the fourth) turns the
status to failed with no new `next_retry_at`; a fourth call leaves it
failed. -/
theorem mark_failed_retry_semantics :
    (∀ (t : Task) (err : Option String) (now : ℚ),
      (t.record_failure err now).retry_config = t.retry_config ∧
      (t.record_failure err now).retry_state.attempt
          = t.retry_state.attempt + 1 ∧
      ((t.record_failure err now).status = .retrying ↔
        (t.retry_state.attempt + 1 < t.retry_config.max_retries ∧
          t.retry_config.should_retry err = true)) ∧
      ((t.record_failure err now).status = .retrying ∨
        (t.record_failure err now).status = .failed) ∧
      ((t.record_failure err now).status = .retrying →
        (t.record_failure err now).retry_state.next_retry_at =
          Option.some (now +
            t.retry_config.calculate_delay (t.retry_state.attempt + 1)) ∧
        (t.record_failure err now).result = t.result) ∧
      ((t.record_failure err now).status = .failed →
        (t.record_failure err now).result = Option.some
          { success := false, error_message := err,
            retry_state_meta :=
              Option.some (t.retry_state.record_attempt err now) } ∧
        (t.record_failure err now).retry_state =
          t.retry_state.record_attempt err now ∧
        (t.record_failure err now).retry_state.next_retry_at =
          t.retry_state.next_retry_at)) ∧
    (∀ (q : TaskQueue) (tid : String) (err : Option String) (now : ℚ)
        (t : Task),
      q.tasks.find? (fun u => u.id = tid) = Option.some t →
      ((q.mark_failed tid err now).2 = true ↔
        (t.record_failure err now).status = .retrying)) ∧
    (taskR1.status = .retrying ∧
      taskR1.retry_state.next_retry_at = Option.some 1 ∧
      taskR2.status = .retrying ∧
      taskR2.retry_state.next_retry_at = Option.some 102 ∧
      taskR3.status = .failed ∧
      taskR3.retry_state.next_retry_at = Option.some 102 ∧
      taskR3.result.map (fun r => r.success) = Option.some false ∧
      taskR3.result.map (fun r => r.retry_state_meta) =
        Option.some (Option.some taskR3.retry_state) ∧
      taskR4.status = .failed) := by
  have hgen : ∀ (t : Task) (err : Option String) (now : ℚ),
      (t.record_failure err now).retry_config = t.retry_config ∧
      (t.record_failure err now).retry_state.attempt
          = t.retry_state.attempt + 1 ∧
      ((t.record_failure err now).status = .retrying ↔
        (t.retry_state.attempt + 1 < t.retry_config.max_retries ∧
          t.retry_config.should_retry err = true)) ∧
      ((t.record_failure err now).status = .retrying ∨
        (t.record_failure err now).status = .failed) ∧
      ((t.record_failure err now).status = .retrying →
        (t.record_failure err now).retry_state.next_retry_at =
          Option.some (now +
            t.retry_config.calculate_delay (t.retry_state.attempt + 1)) ∧
        (t.record_failure err now).result = t.result) ∧
      ((t.record_failure err now).status = .failed →
        (t.record_failure err now).result = Option.some
          { success := false, error_message := err,
            retry_state_meta :=
              Option.some (t.retry_state.record_attempt err now) } ∧
        (t.record_failure err now).retry_state =
          t.retry_state.record_attempt err now ∧
        (t.record_failure err now).retry_state.next_retry_at =
          t.retry_state.next_retry_at) := by
    intro t err now
    obtain ⟨ha, hl, hn⟩ := record_attempt_fields t.retry_state err now
    simp only [Task.record_failure]
    split
    · rename_i hc
      unfold Task.can_retry RetryState.can_retry at hc
      simp only [Bool.and_eq_true, decide_eq_true_eq] at hc
      rw [ha, hl] at hc
      refine ⟨rfl, ha, ⟨fun _ => hc, fun _ => rfl⟩, Or.inl rfl,
        fun _ => ⟨?_, rfl⟩, fun hf => TaskStatus.noConfusion hf⟩
      dsimp only
      rw [ha]
    · rename_i hc
      unfold Task.can_retry RetryState.can_retry at hc
      simp only [Bool.and_eq_true, decide_eq_true_eq] at hc
      rw [ha, hl] at hc
      exact ⟨rfl, ha, ⟨fun hx => TaskStatus.noConfusion hx, fun hx => absurd hx hc⟩,
        Or.inr rfl, fun hr => TaskStatus.noConfusion hr, fun _ => ⟨rfl, rfl, hn⟩⟩
  refine ⟨hgen, ?_, ?_⟩
  · intro q tid err now t hfind
    unfold TaskQueue.mark_failed
    rw [hfind]
    simp
  · -- the exponential-backoff scenario, driven by `hgen`
    have hd1 : cfgExp.calculate_delay 1 = 1 := by
      norm_num [cfgExp, RetryConfig.calculate_delay]
    have hd2 : cfgExp.calculate_delay 2 = 2 := by
      norm_num [cfgExp, RetryConfig.calculate_delay]
    have h0 := hgen taskR0 (Option.some "err") 0
    have hcfg0 : taskR0.retry_config = cfgExp := rfl
    have hat0 : taskR0.retry_state.attempt = 0 := rfl
    have hs1 : taskR1.status = .retrying := by
      refine h0.2.2.1.mpr ⟨?_, by decide⟩
      rw [hat0, hcfg0]; decide
    have hn1 : taskR1.retry_state.next_retry_at = Option.some 1 := by
      have := (h0.2.2.2.2.1 hs1).1
      rw [hcfg0, hat0] at this
      rw [show taskR1 = taskR0.record_failure (Option.some "err") 0 from rfl,
        this, hd1]
      norm_num
    have hcfg1 : taskR1.retry_config = cfgExp := by
      rw [show taskR1 = taskR0.record_failure (Option.some "err") 0 from rfl,
        h0.1, hcfg0]
    have hat1 : taskR1.retry_state.attempt = 1 := by
      rw [show taskR1 = taskR0.record_failure (Option.some "err") 0 from rfl,
        h0.2.1, hat0]
    have h1 := hgen taskR1 (Option.some "err") 100
    have hs2 : taskR2.status = .retrying := by
      refine h1.2.2.1.mpr ⟨?_, ?_⟩
      · rw [hat1, hcfg1]; decide
      · rw [hcfg1]; decide
    have hn2 : taskR2.retry_state.next_retry_at = Option.some 102 := by
      have := (h1.2.2.2.2.1 hs2).1
      rw [hcfg1, hat1] at this
      rw [show taskR2 = taskR1.record_failure (Option.some "err") 100 from rfl,
        this, hd2]
      norm_num
    have hcfg2 : taskR2.retry_config = cfgExp := by
      rw [show taskR2 = taskR1.record_failure (Option.some "err") 100 from rfl,
        h1.1, hcfg1]
    have hat2 : taskR2.retry_state.attempt = 2 := by
      rw [show taskR2 = taskR1.record_failure (Option.some "err") 100 from rfl,
        h1.2.1, hat1]
    have h2 := hgen taskR2 (Option.some "err") 200
    have hs3 : taskR3.status = .failed := by
      rcases h2.2.2.2.1 with hr | hf
      · exfalso
        have := h2.2.2.1.mp hr
        rw [hat2, hcfg2] at this
        exact absurd this.1 (by decide)
      · exact hf
    have h3f := h2.2.2.2.2.2 hs3
    have hn3 : taskR3.retry_state.next_retry_at = Option.some 102 := by
      rw [show taskR3 = taskR2.record_failure (Option.some "err") 200 from rfl,
        h3f.2.2, hn2]
    have hr3 : taskR3.result.map (fun r => r.success) = Option.some false := by
      rw [show taskR3 = taskR2.record_failure (Option.some "err") 200 from rfl,
        h3f.1]
      rfl
    have hm3 : taskR3.result.map (fun r => r.retry_state_meta) =
        Option.some (Option.some taskR3.retry_state) := by
      rw [show taskR3 = taskR2.record_failure (Option.some "err") 200 from rfl,
        h3f.1, h3f.2.1]
      rfl
    have hcfg3 : taskR3.retry_config = cfgExp := by
      rw [show taskR3 = taskR2.record_failure (Option.some "err") 200 from rfl,
        h2.1, hcfg2]
    have hat3 : taskR3.retry_state.attempt = 3 := by
      rw [show taskR3 = taskR2.record_failure (Option.some "err") 200 from rfl,
        h2.2.1, hat2]
    have h3 := hgen taskR3 (Option.some "err") 300
    have hs4 : taskR4.status = .failed := by
      rcases h3.2.2.2.1 with hr | hf
      · exfalso
        have := h3.2.2.1.mp hr
        rw [hat3, hcfg3] at this
        exact absurd this.1 (by decide)
      · exact hf
    exact ⟨hs1, hn1, hs2, hn2, hs3, hn3, hr3, hm3, hs4⟩

/-- Counterexample for C2 as stated: the third `mark_failed` call already
leaves the task failed — not retrying with a 4.0-second delay. -/
theorem mark_failed_third_call_cex :
    taskR3.status = .failed ∧ ¬ taskR3.status = .retrying := by
  constructor
  · decide
  · decide

/-- `update_status` changes only the status and the timestamps. -/
theorem update_status_frame (t : Task) (s : TaskStatus) (now : ℚ) :
    (t.update_status s now).correction_count = t.correction_count ∧
    (t.update_status s now).max_corrections = t.max_corrections ∧
    (t.update_status s now).status = s := by
  unfold Task.update_status
  dsimp only
  split
  · exact ⟨rfl, rfl, rfl⟩
  · split
    · exact ⟨rfl, rfl, rfl⟩
    · exact ⟨rfl, rfl, rfl⟩

/-- Across `runFrom`, the task's correction counter grows by at most the
remaining iteration budget, and `max_corrections` is untouched. -/
theorem runFrom_count_le {α κ : Type} (loop : CorrectionLoop α κ) (ctx : κ)
    (now : ℚ) :
    ∀ (remaining done : Nat) (task : Task) (current : α)
      (acc : List CorrectionIteration),
      (loop.runFrom ctx now remaining done task current acc).1.correction_count
          ≤ task.correction_count + remaining ∧
      (loop.runFrom ctx now remaining done task current acc).1.max_corrections
          = task.max_corrections := by
  intro remaining
  induction remaining with
  | zero =>
      intro done task current acc
      obtain ⟨h1, h2, _⟩ := update_status_frame task .failed now
      refine ⟨?_, ?_⟩
      · rw [show (loop.runFrom ctx now 0 done task current acc).1 =
          task.update_status .failed now from rfl, h1]
        omega
      · rw [show (loop.runFrom ctx now 0 done task current acc).1 =
          task.update_status .failed now from rfl, h2]
  | succ n ih =>
      intro done task current acc
      unfold CorrectionLoop.runFrom
      dsimp only
      split
      · exact ⟨Nat.le_add_right _ _, rfl⟩
      · split
        · exact ⟨Nat.le_add_right _ _, rfl⟩
        · obtain ⟨ihc, ihm⟩ := ih (done + 1)
            (({ task with correction_count := task.correction_count + 1 } :
              Task).update_status .needs_correction now) current
            (acc ++ [{ iteration_number := done + 1
                       evaluation_result :=
                         combine_results (loop.evaluate_all current ctx)
                       correction_applied := Option.some
                         (loop.apply_corrections
                           (combine_results (loop.evaluate_all current ctx))) }])
          obtain ⟨hf1, hf2, _⟩ := update_status_frame
            ({ task with correction_count := task.correction_count + 1 } : Task)
            .needs_correction now
          constructor
          · refine le_trans ihc ?_
            rw [hf1]
            show task.correction_count + 1 + n ≤ task.correction_count + (n + 1)
            omega
          · rw [ihm, hf2]

/-- `runFrom` performs at most its remaining budget of further iterations:
under the invariant `done + remaining = max_iterations`, the reported
`total_iterations` never exceeds `max_iterations`. -/
theorem runFrom_total_le {α κ : Type} (loop : CorrectionLoop α κ) (ctx : κ)
    (now : ℚ) :
    ∀ (remaining done : Nat) (task : Task) (current : α)
      (acc : List CorrectionIteration),
      done + remaining = loop.max_iterations →
      (loop.runFrom ctx now remaining done task current acc).2.total_iterations
        ≤ loop.max_iterations := by
  intro remaining
  induction remaining with
  | zero => intro done task current acc _; exact le_refl _
  | succ n ih =>
      intro done task current acc hinv
      unfold CorrectionLoop.runFrom
      dsimp only
      split
      · dsimp only
        omega
      · split
        · dsimp only
          omega
        · exact ih (done + 1) _ current _ (by omega)

/-- C5.  Every correction-loop run reports `total_iterations ≤
max_iterations`; and in scenario 4 (an evaluator always returning
passed=false, score=0.5, needs_correction=true, with max_iterations=3 and
min_passing_score=0.8) the run returns total_iterations=3,
status=max_iterations_reached, success=false, moves the task to failed and
increments its correction counter three times. -/
theorem correction_loop_iterations :
    (∀ (α κ : Type) (loop : CorrectionLoop α κ) (task : Task) (out : α)
        (ctx : κ) (now : ℚ),
      (loop.run task out ctx now).2.total_iterations ≤ loop.max_iterations) ∧
    ((loop3.run taskCorr () () 0).2.total_iterations = 3 ∧
      (loop3.run taskCorr () () 0).2.status = .max_iterations_reached ∧
      (loop3.run taskCorr () () 0).2.success = false ∧
      (loop3.run taskCorr () () 0).1.status = .failed ∧
      (loop3.run taskCorr () () 0).1.correction_count = 3 ∧
      taskCorr.correction_count = 0) := by
  constructor
  · intro α κ loop task out ctx now
    exact runFrom_total_le loop ctx now loop.max_iterations 0 task out []
      (by omega)
  · exact ⟨by decide, by decide, by decide, by decide, by decide, rfl⟩

/-- C3 (amended).  A correction-loop run increments the task's
`correction_count` at most `max_iterations` times and never touches
`max_corrections`; the invariant `correction_count ≤ max_corrections`
therefore survives the run whenever the starting `correction_count` plus
the loop's `max_iterations` fits under `max_corrections` (in particular for
the default configuration, 0 + 3 ≤ 3), but the loop itself enforces no cap
against `max_corrections`. -/
theorem correction_count_budget (α κ : Type) (loop : CorrectionLoop α κ)
    (task : Task) (out : α) (ctx : κ) (now : ℚ) :
    (loop.run task out ctx now).1.correction_count ≤
        task.correction_count + loop.max_iterations ∧
    (loop.run task out ctx now).1.max_corrections = task.max_corrections ∧
    (task.correction_count + loop.max_iterations ≤ task.max_corrections →
      (loop.run task out ctx now).1.correction_count ≤
        (loop.run task out ctx now).1.max_corrections) := by
  obtain ⟨h1, h2⟩ := runFrom_count_le loop ctx now loop.max_iterations 0 task out []
  refine ⟨h1, h2, fun hb => ?_⟩
  show (loop.runFrom ctx now loop.max_iterations 0 task out []).1.correction_count
    ≤ (loop.runFrom ctx now loop.max_iterations 0 task out []).1.max_corrections
  rw [h2]
  exact le_trans h1 hb

/-- Witness for C3: with the default configuration (max_iterations = 3,
max_corrections = 3, counter starting at 0) the bound holds after the run. -/
theorem correction_count_budget_witness :
    ((loop3.run taskCorr () () 0).1.correction_count ≤
        taskCorr.correction_count + loop3.max_iterations ∧
      (loop3.run taskCorr () () 0).1.max_corrections = taskCorr.max_corrections ∧
      (taskCorr.correction_count + loop3.max_iterations ≤ taskCorr.max_corrections →
        (loop3.run taskCorr () () 0).1.correction_count ≤
          (loop3.run taskCorr () () 0).1.max_corrections)) :=
  correction_count_budget Unit Unit loop3 taskCorr () () 0

/-- Counterexample for C3 as stated: with `max_iterations = 4` and the
always-failing evaluator, a task created with `max_corrections = 3` ends
the run with `correction_count = 4 > 3`. -/
theorem correction_count_exceeds_cex :
    (loop4.run taskCorr () () 0).1.correction_count = 4 ∧
    (loop4.run taskCorr () () 0).1.max_corrections = 3 ∧
    ¬ ((loop4.run taskCorr () () 0).1.correction_count ≤
        (loop4.run taskCorr () () 0).1.max_corrections) := by
  exact ⟨by decide, by decide, by decide⟩

/-- Enum round-trip: looking a step type value string back up returns the
member. -/
theorem ofValue_value (ty : WorkflowStepType) :
    WorkflowStepType.ofValue ty.value = Option.some ty := by
  cases ty <;> rfl

/-- `from_dict` on a `to_dict`-shaped step dictionary succeeds and restores
every serialized field, resetting `metadata` (absent from the dictionary)
to empty. -/
theorem stepFromDict_to_dict (s : WorkflowStep) :
    stepFromDict s.to_dict = Option.some
      { id := s.id, name := s.name, step_type := s.step_type,
        config := s.config, dependencies := s.dependencies,
        timeout_seconds := s.timeout_seconds, metadata := [] } := by
  simp only [stepFromDict, WorkflowStep.to_dict, ofValue_value]

/-- C4 (amended).  `Workflow.from_dict (w.to_dict())` succeeds and preserves
id, name, version, variables and, per step in order, id, name, step_type,
config, dependencies and timeout — but each step's `metadata` comes back
empty, because `WorkflowStep.to_dict` does not serialize it. -/
theorem workflow_roundtrip (w : Workflow) :
    ∃ w2, Workflow.from_dict w.to_dict = Option.some w2 ∧
      w2.id = w.id ∧ w2.name = w.name ∧ w2.version = w.version ∧
      w2.vars = w.vars ∧ w2.description = w.description ∧
      w2.steps.map (fun s => (s.id, s.name, s.step_type, s.config,
        s.dependencies, s.timeout_seconds)) =
        w.steps.map (fun s => (s.id, s.name, s.step_type, s.config,
          s.dependencies, s.timeout_seconds)) ∧
      w2.steps.map (fun s => s.metadata) = w.steps.map (fun _ => []) := by
  have hsteps : (w.steps.map (fun s => s.to_dict)).mapM stepFromDict =
      Option.some (w.steps.map (fun s =>
        ({ id := s.id, name := s.name, step_type := s.step_type,
           config := s.config, dependencies := s.dependencies,
           timeout_seconds := s.timeout_seconds,
           metadata := [] } : WorkflowStep))) := by
    induction w.steps with
    | nil => rfl
    | cons a l ih =>
        simp only [List.map_cons, List.mapM_cons, stepFromDict_to_dict, ih,
          Option.bind_eq_bind, Option.some_bind]
        rfl
  refine ⟨{ id := w.id, name := w.name, description := w.description,
            version := w.version,
            steps := w.steps.map (fun s =>
              ({ id := s.id, name := s.name, step_type := s.step_type,
                 config := s.config, dependencies := s.dependencies,
                 timeout_seconds := s.timeout_seconds,
                 metadata := [] } : WorkflowStep)),
            vars := w.vars }, ?_, rfl, rfl, rfl, rfl, rfl, ?_, ?_⟩
  · simp only [Workflow.from_dict, Workflow.to_dict]
    rw [hsteps]
  · simp only [List.map_map]
    rfl
  · simp only [List.map_map]
    rfl

/-- Counterexample for C4 as stated: a step's non-empty metadata does not
survive the round-trip — it comes back empty. -/
theorem workflow_roundtrip_metadata_cex :
    (Workflow.from_dict wfM.to_dict).map
        (fun w2 => w2.steps.map (fun s => s.metadata)) = Option.some [[]] ∧
    wfM.steps.map (fun s => s.metadata) = [[("k", "v")]] ∧
    ¬ (Workflow.from_dict wfM.to_dict).map
        (fun w2 => w2.steps.map (fun s => s.metadata)) =
      Option.some (wfM.steps.map (fun s => s.metadata)) := by
  exact ⟨by decide, by decide, by decide⟩

/-- C9 (amended).  `send_message` returns none when the conversation is
missing or inactive, and none when the recipient is unregistered; otherwise
it invokes the recipient's `process_message` on a message carrying sender,
recipient, content and conversation-id metadata and returns the response —
but it appends no turn to the conversation (nothing in `send_message`
mutates the conversation).  Separately, `Conversation.add_turn` is what
appends a turn, forcing status completed once the turn count reaches
`max_turns`. -/
theorem send_message_semantics (o : Orchestrator)
    (cid sender recipient content : String) :
    (o.conversations.lookup cid = Option.none →
      o.send_message cid sender recipient content = Option.none) ∧
    (∀ conv, o.conversations.lookup cid = Option.some conv →
      (¬ conv.is_active →
        o.send_message cid sender recipient content = Option.none) ∧
      (conv.is_active →
        (o.agents.lookup recipient = Option.none →
          o.send_message cid sender recipient content = Option.none) ∧
        (∀ ag, o.agents.lookup recipient = Option.some ag →
          o.send_message cid sender recipient content =
            Option.some (ag { sender := sender, recipient := recipient,
                              content := content,
                              metadata := [("conversation_id", cid)] })))) ∧
    (∀ (c : Conversation) (turn : ConversationTurn) (now : ℚ),
      (c.add_turn turn now).turns = c.turns ++ [turn] ∧
      (c.turns.length + 1 ≥ c.max_turns →
        (c.add_turn turn now).status = .completed) ∧
      (c.turns.length + 1 < c.max_turns →
        (c.add_turn turn now).status = c.status)) := by
  refine ⟨fun h => ?_, fun conv hc => ⟨fun hi => ?_, fun ha => ⟨fun hn => ?_,
    fun ag hag => ?_⟩⟩, fun c turn now => ?_⟩
  · unfold Orchestrator.send_message
    rw [h]
  · unfold Orchestrator.send_message
    rw [hc]
    dsimp only
    rw [if_pos hi]
  · unfold Orchestrator.send_message
    rw [hc]
    dsimp only
    rw [if_neg (by simpa using ha), hn]
  · unfold Orchestrator.send_message
    rw [hc]
    dsimp only
    rw [if_neg (by simpa using ha), hag]
  · unfold Conversation.add_turn
    dsimp only
    constructor
    · split <;> rfl
    · rw [List.length_append]
      constructor
      · intro hge
        rw [if_pos (by simpa using hge)]
      · intro hlt
        rw [if_neg (by simp; omega)]

/-- Witness for C9: in `orch9` a send to the registered agent `bob` in the
active conversation `c` returns bob's response, and `add_turn` on a fresh
conversation appends the turn without completing it. -/
theorem send_message_semantics_witness :
    (orch9.conversations.lookup "c" = Option.some convC) ∧
      (orch9.send_message "c" "alice" "bob" "hello" =
        Option.some (echoAgent { sender := "alice", recipient := "bob",
                                 content := "hello",
                                 metadata := [("conversation_id", "c")] })) :=
  ⟨by decide,
    (((send_message_semantics orch9 "c" "alice" "bob" "hello").2.1 convC
      (by decide)).2 (by decide)).2 echoAgent rfl⟩

/-- Counterexample for C9 as stated: the send succeeds (a response comes
back) yet no turn is appended anywhere — `send_message` performs no
conversation mutation, so the conversation's transcript stays empty. -/
theorem send_message_no_turn_cex :
    (orch9.send_message "c" "alice" "bob" "hello").isSome = true ∧
      (orch9.conversations.lookup "c").map (fun c => c.turns.length) =
        Option.some 0 := by
  exact ⟨by decide, by decide⟩

/-- `applyOutcome` never changes the step's identity. -/
theorem applyOutcome_id (s : WorkflowStep) (o : Except String StepResult)
    (now : ℚ) : (applyOutcome s o now).id = s.id := by
  cases o <;> rfl

/-- Marking an outcome changes no field `runStep` reads, so re-running the
step dispatch is unaffected. -/
theorem runStep_applyOutcome (agents : List (String × EngineAgent))
    (s : WorkflowStep) (o : Except String StepResult) (now now2 : ℚ) :
    runStep agents (applyOutcome s o now) now2 = runStep agents s now2 := by
  cases o <;> rfl

/-- A key absent from every pair of an association list looks up to none. -/
theorem lookup_eq_none_of {β : Type} (l : List (String × β)) (k : String)
    (h : ∀ p ∈ l, p.1 ≠ k) : l.lookup k = Option.none := by
  induction l with
  | nil => rfl
  | cons p l ih =>
      obtain ⟨a, b⟩ := p
      have hne : (k == a) = false := by
        rw [beq_eq_false_iff_ne]
        intro hk
        exact h (a, b) (List.mem_cons.mpr (Or.inl rfl)) hk.symm
      rw [show List.lookup k ((a, b) :: l) = List.lookup k l by
        simp [List.lookup, hne]]
      exact ih (fun q hq => h q (List.mem_cons.mpr (Or.inr hq)))

/-- A successful lookup finds a pair of the list. -/
theorem mem_of_lookup_eq_some {β : Type} {l : List (String × β)} {k : String}
    {v : β} (h : l.lookup k = Option.some v) : (k, v) ∈ l := by
  induction l with
  | nil => exact absurd h (by simp [List.lookup])
  | cons p l ih =>
      obtain ⟨a, b⟩ := p
      cases hbk : (k == a) with
      | true =>
          have h2 : Option.some b = Option.some v := by
            rw [show List.lookup k ((a, b) :: l) = Option.some b by
              simp [List.lookup, hbk]] at h
            exact h
          obtain rfl : b = v := by injection h2
          exact List.mem_cons.mpr (Or.inl (by rw [beq_iff_eq.mp hbk]))
      | false =>
          rw [show List.lookup k ((a, b) :: l) = List.lookup k l by
            simp [List.lookup, hbk]] at h
          exact List.mem_cons.mpr (Or.inr (ih h))

/-- A ready step is a pending step of the state with all dependencies
completed. -/
theorem mem_ready_spec {st : ExecState} {s : WorkflowStep}
    (h : s ∈ st.ready) :
    s ∈ st.steps ∧ s.status = .pending ∧
      ∀ d ∈ s.dependencies, d ∈ st.completed := by
  have hm := List.mem_filter.mp h
  simp only [Bool.and_eq_true, decide_eq_true_eq, List.all_eq_true] at hm
  exact ⟨hm.1, hm.2.1, fun d hd => List.mem_of_elem_eq_true (hm.2.2 d hd)⟩

/-- One engine round (launch a batch of ready steps, mark outcomes, extend
the completed set) preserves the blocked-workflow invariant.  The batch
`launch` may be any selection of ready steps; the new `outputs` and
`step_results` are irrelevant to the invariant. -/
theorem round_preserves_blocked (agents : List (String × EngineAgent))
    (now : ℚ) (fid : String) (S : List String)
    (steps : List WorkflowStep) (completed : List String)
    (outputs O2 : List (String × StepResult))
    (res R2 : List (String × Except String StepResult))
    (launch : List WorkflowStep)
    (hsub : ∀ s ∈ launch, s ∈ steps ∧ s.status = .pending ∧
      ∀ d ∈ s.dependencies, d ∈ completed)
    (h : FailBlocked agents now fid S
      { steps := steps, completed := completed, outputs := outputs,
        step_results := res }) :
    FailBlocked agents now fid S
      { steps := steps.map (fun s =>
          match (launch.map (fun x => (x.id, runStep agents x now))).lookup s.id with
          | Option.some o => applyOutcome s o now
          | Option.none => s)
        completed := completed ++ launch.filterMap (fun s =>
          match runStep agents s now with
          | Except.ok _ => Option.some s.id
          | Except.error _ => Option.none)
        outputs := O2
        step_results := R2 } := by
  obtain ⟨h1, h2, h3, h4⟩ := h
  -- no launched step's id lies in S
  have hKS : ∀ x ∈ launch, x.id ∉ S := by
    intro x hx hxS
    obtain ⟨hxm, _, hxd⟩ := hsub x hx
    obtain ⟨_, hany⟩ := h4 x hxm hxS
    obtain ⟨d, hd, hdp⟩ := List.any_eq_true.mp hany
    rcases (by simpa using hdp : (d == fid) = true ∨ S.contains d = true)
      with hdf | hds
    · exact h2 (beq_iff_eq.mp hdf ▸ hxd d hd)
    · exact h3 d (List.mem_of_elem_eq_true hds) (hxd d hd)
  -- a successful lookup comes from a launched step with that id
  have hKL : ∀ (k : String) (o : Except String StepResult),
      (launch.map (fun x => (x.id, runStep agents x now))).lookup k =
        Option.some o →
      ∃ x ∈ launch, x.id = k ∧ o = runStep agents x now := by
    intro k o ho
    obtain ⟨x, hx, hxe⟩ := List.mem_map.mp (mem_of_lookup_eq_some ho)
    exact ⟨x, hx, congrArg Prod.fst hxe, (congrArg Prod.snd hxe).symm⟩
  refine ⟨?_, ?_, ?_, ?_⟩
  · -- every step carrying fid still fails when dispatched
    intro s' hs' hid
    obtain ⟨s, hs, rfl⟩ := List.mem_map.mp hs'
    cases ho : (launch.map (fun x => (x.id, runStep agents x now))).lookup s.id with
    | none =>
        rw [ho] at hid
        exact h1 s hs hid
    | some o =>
        rw [ho] at hid
        rw [applyOutcome_id] at hid
        have hgoal := h1 s hs hid
        rw [← runStep_applyOutcome agents s o now now] at hgoal
        exact hgoal
  · -- fid never enters the completed set
    intro hmem
    rcases List.mem_append.mp hmem with hl | hr
    · exact h2 hl
    · obtain ⟨x, hx, hxe⟩ := List.mem_filterMap.mp hr
      cases hrs : runStep agents x now with
      | ok r =>
          rw [hrs] at hxe
          have hxid : x.id = fid := by injection hxe
          have hfail := h1 x (hsub x hx).1 hxid
          rw [hrs] at hfail
          exact Bool.noConfusion hfail
      | error e =>
          rw [hrs] at hxe
          exact Option.noConfusion hxe
  · -- no id of S enters the completed set
    intro i hiS hmem
    rcases List.mem_append.mp hmem with hl | hr
    · exact h3 i hiS hl
    · obtain ⟨x, hx, hxe⟩ := List.mem_filterMap.mp hr
      cases hrs : runStep agents x now with
      | ok r =>
          rw [hrs] at hxe
          have hxid : x.id = i := by injection hxe
          exact hKS x hx (hxid ▸ hiS)
      | error e =>
          rw [hrs] at hxe
          exact Option.noConfusion hxe
  · -- steps of S stay pending with their blocking dependency
    intro s' hs' hidS
    obtain ⟨s, hs, rfl⟩ := List.mem_map.mp hs'
    cases ho : (launch.map (fun x => (x.id, runStep agents x now))).lookup s.id with
    | some o =>
        rw [ho] at hidS
        rw [applyOutcome_id] at hidS
        obtain ⟨x, hx, hxk, _⟩ := hKL s.id o ho
        exact absurd (hxk ▸ hidS) (hKS x hx)
    | none =>
        rw [ho] at hidS
        exact h4 s hs hidS

/-- Along the whole engine loop the blocked-workflow invariant is
preserved, for any fuel. -/
theorem execLoop_preserves_blocked (agents : List (String × EngineAgent))
    (maxPar : Nat) (now : ℚ) (fid : String) (S : List String) :
    ∀ (fuel : Nat) (st : ExecState), FailBlocked agents now fid S st →
      FailBlocked agents now fid S (execLoop agents maxPar now fuel st).1 := by
  intro fuel
  induction fuel with
  | zero => intro st h; exact h
  | succ n ih =>
      intro st h
      unfold execLoop
      dsimp only
      split
      · split
        · exact h
        · split
          · exact h
          · exact h
      · apply ih
        apply round_preserves_blocked agents now fid S st.steps st.completed
          st.outputs _ st.step_results _ (st.ready.take maxPar)
        · intro s hs
          exact mem_ready_spec (List.mem_of_mem_take hs)
        · exact h

/-- The final workflow's steps are exactly the loop's final steps. -/
theorem execute_steps_eq (agents : List (String × EngineAgent))
    (maxPar : Nat) (w : Workflow) (inputs : StrMap) (now : ℚ) :
    (WorkflowEngine.execute agents maxPar w inputs now).1.steps =
      (execLoop agents maxPar now (w.steps.length + 1)
        { steps := w.steps, completed := [], outputs := [],
          step_results := [] }).1.steps := by
  unfold WorkflowEngine.execute
  dsimp only
  cases hE : execLoop agents maxPar now (w.steps.length + 1)
      { steps := w.steps, completed := [], outputs := [], step_results := [] } with
  | mk st exc =>
      cases exc with
      | none =>
          dsimp only
          split <;> rfl
      | some msg => rfl

/-- Downstream steps of an always-raising step are never dispatched: after
`execute`, every step whose id lies in a blocked set `S` (each of its
members has a dependency equal to the failing id or again in `S`) is still
pending. -/
theorem engine_blocked_pending (agents : List (String × EngineAgent))
    (maxPar : Nat) (w : Workflow) (inputs : StrMap) (now : ℚ)
    (fid : String) (S : List String)
    (hf : ∀ s ∈ w.steps, s.id = fid → (runStep agents s now).isOk = false)
    (hS : ∀ s ∈ w.steps, s.id ∈ S →
      s.status = .pending ∧
        s.dependencies.any (fun d => d == fid || S.contains d) = true) :
    ∀ s ∈ (WorkflowEngine.execute agents maxPar w inputs now).1.steps,
      s.id ∈ S → s.status = .pending := by
  have hinv := execLoop_preserves_blocked agents maxPar now fid S
    (w.steps.length + 1)
    { steps := w.steps, completed := [], outputs := [], step_results := [] }
    ⟨hf, by simp, by simp, hS⟩
  intro s hs hid
  rw [execute_steps_eq] at hs
  exact (hinv.2.2.2 s hs hid).1

/-- C6.  When one step's handler raises: any set of steps all of which
transitively depend on the raising step (each has a dependency equal to the
raising id or again in the set) stays pending after `execute`; and in the
feature-development scenario with the `DevAgent` raising, `development`
ends failed, `testing`, `security_review` and `documentation` stay pending,
and the engine returns success = false with the error message
`Workflow blocked: steps failed:` followed by the Python repr
`[` quote `development` quote `]`. -/
theorem workflow_blocked_by_failure :
    (∀ (agents : List (String × EngineAgent)) (maxPar : Nat) (w : Workflow)
        (inputs : StrMap) (now : ℚ) (fid : String) (S : List String),
      (∀ s ∈ w.steps, s.id = fid → (runStep agents s now).isOk = false) →
      (∀ s ∈ w.steps, s.id ∈ S →
        s.status = .pending ∧
          s.dependencies.any (fun d => d == fid || S.contains d) = true) →
      ∀ s ∈ (WorkflowEngine.execute agents maxPar w inputs now).1.steps,
        s.id ∈ S → s.status = .pending) ∧
    (featRun.1.steps.map (fun s => (s.name, s.status)) =
      [("planning", .completed), ("architecture", .completed),
       ("development", .failed), ("testing", .pending),
       ("security_review", .pending), ("documentation", .pending)] ∧
     featRun.2.success = false ∧
     featRun.2.error_message =
       Option.some ("Workflow blocked: steps failed: [" ++ sq ++
         "development" ++ sq ++ "]")) := by
  refine ⟨engine_blocked_pending, ?_, ?_, ?_⟩
  · decide
  · decide
  · decide

end Orch
